import Mathlib

/-
Verification of the host-environment utility layer in
src/main/cpp/blaze_util.cc: option-token parsing, port validation,
path absolutization, recursive directory creation, whole-file
read/write, and terminal detection.

Strings from the C++ code (std::string, const char*) are embedded as
List Char.  Machine integers are embedded as Int/Nat.  System calls are
embedded by passing their outcomes (or a small filesystem state)
explicitly; a function that can call die()/exit() returns an Outcome
carrying the exit status instead of terminating.
-/

set_option autoImplicit false

namespace blaze

/-- Modelled from the spec: blaze_exit_code.h is not under src/.  The spec
only requires the bad-argument category and the environmental-error
category to be distinct, stable exit statuses; the numeric values are an
implementation choice. -/
def BAD_ARGV : Nat := 2

/-- Modelled from the spec: second exit-status category, distinct from
the bad-argument one (see BAD_ARGV). -/
def LOCAL_ENVIRONMENTAL_ERROR : Nat := 36

/-- Result of a function that may call die(exit_status, ...): either a
normal return value, or process termination with the given status. -/
inductive Outcome (α : Type) where
  | ok : α → Outcome α
  | fatal : Nat → Outcome α
deriving DecidableEq, Repr

/-- Modelled from the spec: blaze_util::var_strprefix (util/strings.h,
not under src/) compares arg against key character by character and
returns the pointer just past key when key is a prefix of arg, and NULL
otherwise.  NULL becomes none; the returned suffix becomes some. -/
def var_strprefix : List Char → List Char → Option (List Char)
  | arg, [] => some arg
  | [], _ :: _ => none
  | a :: arg, k :: key => if a = k then var_strprefix arg key else none

/-- Embeds GetUnaryOption from blaze_util.cc.  The C function returns a
const char*: NULL (no match) becomes none, any non-NULL result becomes
some. -/
def GetUnaryOption (arg next_arg key : List Char) : Option (List Char) :=
  match var_strprefix arg key with
  | none => none
  | some value =>
    match value with
    | [] => some next_arg
    | c :: rest => if c = '=' then some rest else none

/-- Embeds GetNullaryOption from blaze_util.cc.  The die(BAD_ARGV, ...)
call on a trailing '=value' becomes Outcome.fatal BAD_ARGV. -/
def GetNullaryOption (arg key : List Char) : Outcome Bool :=
  match var_strprefix arg key with
  | none => Outcome.ok false
  | some value =>
    match value with
    | [] => Outcome.ok true
    | c :: _ => if c = '=' then Outcome.fatal BAD_ARGV else Outcome.ok false

/-- Value of a list of decimal digit characters, most significant first. -/
def digitsToNat (ds : List Char) : Nat :=
  ds.foldl (fun acc c => acc * 10 + (c.toNat - 48)) 0

/-- Modelled from the spec: blaze_util::strto32 (util/numbers.h, not
under src/) is a strtol-style base-10 parse.  It consumes an optional
sign followed by decimal digits and reports the parsed value together
with the number of characters consumed (the endptr offset); when no
digit follows, nothing is consumed and the value is 0.  The int32
clamping of the C version is not modelled, as the spec does not mention
it. -/
def strto32 (s : List Char) : Int × Nat :=
  let (sign, signLen, rest) : Int × Nat × List Char :=
    match s with
    | '-' :: r => (-1, 1, r)
    | '+' :: r => (1, 1, r)
    | r => (1, 0, r)
  let ds := rest.takeWhile (fun c => c.isDigit)
  if ds = [] then (0, 0)
  else (sign * (digitsToNat ds : Int), signLen + ds.length)

/-- Modelled from the spec: blaze_util::safe_strto32 (util/numbers.h,
not under src/) parses the whole string as a base-10 integer, succeeding
only when the entire (nonempty) string is consumed by the parse. -/
def safe_strto32 (s : List Char) : Option Int :=
  match strto32 s with
  | (n, used) => if used = s.length ∧ s ≠ [] then some n else none

/-- Embeds CheckValidPortOrDie from blaze_util.cc. -/
def CheckValidPortOrDie (str opt : List Char) : Outcome Unit :=
  match safe_strto32 str with
  | some number =>
    if 0 < number ∧ number < 65536 then Outcome.ok ()
    else Outcome.fatal BAD_ARGV
  | none => Outcome.fatal BAD_ARGV

/-- Embeds GetTerminalColumns from blaze_util.cc.  The TIOCGWINSZ ioctl
outcome is passed explicitly: some ws_col when the ioctl succeeds, none
when it fails.  The COLUMNS environment variable is none when unset. -/
def GetTerminalColumns (ws : Option Nat) (columns_env : Option (List Char)) : Int :=
  match ws with
  | some ws_col => (ws_col : Int)
  | none =>
    match columns_env with
    | some s =>
      if s ≠ [] then
        match strto32 s with
        | (columns, used) => if used = s.length then columns else 80
      else 80
    | none => 80

/-- Embeds MakeAbsolute from blaze_util.cc.  The current working
directory (the getcwd result, which the C code obtains only on the
relative branch and which is a nonempty absolute path when getcwd
succeeds) is passed explicitly as cwd. -/
def MakeAbsolute (cwd path : List Char) : List Char :=
  if path = [] ∨ path.head? = some '/' then path
  else
    let separator : List Char := if cwd.getLast? = some '/' then [] else ['/']
    cwd ++ separator ++ path

/-- Filesystem state for MakeDirectories: the set of directories that
exist, each as an absolute path without trailing slash (the root is the
single-character path "/").  Permission modes are not tracked. -/
abbrev DirFs := List (List Char)

/-- Parent directory of a path: everything before the last slash, with
the root as its own degenerate case.  Used to model the ENOENT failure
of mkdir(2) when the parent is missing. -/
def parentDir (p : List Char) : List Char :=
  let q := (p.reverse.takeWhile (fun c => ¬(c = '/'))).length
  let r := p.take (p.length - q - 1)
  if r = [] then ['/'] else r

/-- Error cases of mkdir(2) that MakeDirectories distinguishes: EEXIST
(path already exists) versus any other errno. -/
inductive MkdirErr where
  | eexist
  | other
deriving DecidableEq, Repr

/-- Models mkdir(2) on a DirFs: fails with EEXIST when the path already
exists, creates the directory when its parent exists, and fails with
another errno (ENOENT) otherwise.  The mode argument is accepted but the
permission bits are not tracked. -/
def mkdir (p : List Char) (mode : Nat) (fs : DirFs) : Option MkdirErr × DirFs :=
  if p ∈ fs then (some MkdirErr.eexist, fs)
  else if parentDir p ∈ fs then (none, p :: fs)
  else (some MkdirErr.other, fs)

/-- Indices i ≥ 1 at which path has a '/', in increasing order: the
strchr(buf + 1, '/') walk of MakeDirectories truncates the path at
exactly these indices. -/
def slashIdxs (p : List Char) : List Nat :=
  (List.range p.length).filter (fun i => decide (1 ≤ i) && (p.getD i ' ' == '/'))

/-- The loop of MakeDirectories: mkdir each slash-truncated prefix, then
the whole path; an EEXIST result is not an error, any other mkdir
failure aborts with -1. -/
def makeDirsGo (p : List Char) (mode : Nat) : List Nat → DirFs → Int × DirFs
  | [], fs =>
    match mkdir p mode fs with
    | (some MkdirErr.other, fs') => (-1, fs')
    | (_, fs') => (0, fs')
  | i :: rest, fs =>
    match mkdir (p.take i) mode fs with
    | (some MkdirErr.other, fs') => (-1, fs')
    | (_, fs') => makeDirsGo p mode rest fs'

/-- Embeds MakeDirectories (mkdir -p) from blaze_util.cc: returns 0 on
success and -1 on failure, together with the updated filesystem. -/
def MakeDirectories (p : List Char) (mode : Nat) (fs : DirFs) : Int × DirFs :=
  makeDirsGo p mode (slashIdxs p) fs

/-- Filesystem state for ReadFile/WriteFile: an association of paths to
byte contents (bytes embedded as Char, including null characters). -/
abbrev Fs := List (List Char × List Char)

/-- Models unlink(2): removes the entry for path, a no-op when the path
does not exist (WriteFile ignores the result either way). -/
def unlink (path : List Char) (fs : Fs) : Fs :=
  fs.filter (fun e => !(e.1 == path))

/-- Content of the file at path, none when no such file exists. -/
def fsLookup (path : List Char) (fs : Fs) : Option (List Char) :=
  match fs.find? (fun e => e.1 == path) with
  | some e => some e.2
  | none => none

/-- Outcomes of the system calls WriteFile makes, passed explicitly:
whether open(2) succeeds (and the errno it sets on failure), the return
value of the single write(2) call (-1 on error, otherwise the byte count
written) and the errno observable after it, and whether close(2)
succeeds (and the errno it sets on failure). -/
structure WriteEnv where
  openOk : Bool
  openErrno : Nat
  writeRet : Int
  writeErrno : Nat
  closeOk : Bool
  closeErrno : Nat
deriving DecidableEq, Repr

/-- Embeds WriteFile from blaze_util.cc: unlink the path, open with
O_CREAT|O_WRONLY|O_TRUNC (creating an empty file), write the content
with one write(2) call, save errno, close, and restore the saved errno
only when close succeeds.  Returns the bool result, the errno value
observable by the caller after the return, and the updated
filesystem. -/
def WriteFile (content path : List Char) (env : WriteEnv) (fs : Fs) : Bool × Nat × Fs :=
  let fs1 := unlink path fs
  if env.openOk = false then (false, env.openErrno, fs1)
  else
    let written := content.take env.writeRet.toNat
    let fs2 := (path, written) :: fs1
    let saved_errno := env.writeErrno
    if env.closeOk = false then (false, env.closeErrno, fs2)
    else (env.writeRet == (content.length : Int), saved_errno, fs2)

/-- Size of the stack buffer ReadFile reads into: char buf[4096]. -/
def bufSize : Nat := 4096

/-- Outcome of one read(2) call in ReadFile, passed as a script: the
call succeeds (delivering the next bufSize-bounded chunk, or 0 at end of
file), or fails with errno == EINTR, or fails with any other errno.  An
exhausted script means every further read succeeds. -/
inductive RdOut where
  | ok
  | intr
  | err
deriving DecidableEq, Repr

/-- The read loop of ReadFile: append each successful bufSize-bounded
chunk, retry on EINTR, stop with false on any other error, stop with
true when read returns 0 at end of file.  Once the script is exhausted
every remaining read succeeds, so the loop appends chunk after chunk of
the remaining bytes until it reads 0 and returns true: that tail of the
iteration is summed up as appending all remaining bytes at once. -/
def readLoop (data : List Char) (script : List RdOut) (acc : List Char) : Bool × List Char :=
  match script with
  | [] => (true, acc ++ data)
  | RdOut.intr :: rest => readLoop data rest acc
  | RdOut.err :: _ => (false, acc)
  | RdOut.ok :: rest =>
    if data = [] then (true, acc)
    else readLoop (data.drop bufSize) rest (acc ++ data.take bufSize)

/-- Embeds ReadFile from blaze_util.cc: content0 is the previous value
of the output string (cleared at the start of every call); the open(2)
failure case is the absence of the path from the filesystem. -/
def ReadFile (path : List Char) (fs : Fs) (script : List RdOut) (content0 : List Char) : Bool × List Char :=
  let content : List Char := []
  match fsLookup path fs with
  | none => (false, content)
  | some data => readLoop data script content

/-- Environment IsStandardTerminal consults: the TERM and EMACS
environment variables (none when unset) and whether stdout/stderr are
attached to a terminal (the isatty results). -/
structure TermEnv where
  term : Option (List Char)
  emacs : Option (List Char)
  stdout_tty : Bool
  stderr_tty : Bool
deriving DecidableEq, Repr

/-- getenv with the nullptr-to-empty-string default used by
IsStandardTerminal. -/
def envOrEmpty (v : Option (List Char)) : List Char :=
  match v with
  | none => []
  | some s => s

/-- Embeds IsStandardTerminal from blaze_util.cc. -/
def IsStandardTerminal (e : TermEnv) : Bool :=
  let term := envOrEmpty e.term
  let emacs := envOrEmpty e.emacs
  if term = [] ∨ term = ['d', 'u', 'm', 'b'] ∨ term = ['e', 'm', 'a', 'c', 's'] ∨
      term = ['x', 't', 'e', 'r', 'm', '-', 'm', 'o', 'n', 'o'] ∨
      term = ['s', 'y', 'm', 'b', 'o', 'l', 'i', 'c', 's'] ∨
      term = ['9', 't', 'e', 'r', 'm'] ∨ emacs = ['t'] then
    false
  else
    e.stdout_tty && e.stderr_tty

/-- The denylist condition of claim C8, stated directly on the
environment: TERM unset or empty or one of the dumb terminal types, or
EMACS set to the literal value t. -/
def deniedTerm (e : TermEnv) : Prop :=
  e.term = none ∨ e.term = some [] ∨ e.term = some ['d', 'u', 'm', 'b'] ∨
  e.term = some ['e', 'm', 'a', 'c', 's'] ∨
  e.term = some ['x', 't', 'e', 'r', 'm', '-', 'm', 'o', 'n', 'o'] ∨
  e.term = some ['s', 'y', 'm', 'b', 'o', 'l', 'i', 'c', 's'] ∨
  e.term = some ['9', 't', 'e', 'r', 'm'] ∨ e.emacs = some ['t']

instance (e : TermEnv) : Decidable (deniedTerm e) := by
  unfold deniedTerm
  infer_instance

theorem var_strprefix_some : ∀ (key arg v : List Char),
    var_strprefix arg key = some v ↔ arg = key ++ v := by
  intro key
  induction key with
  | nil =>
    intro arg v
    simp [ var_strprefix]
  | cons k ks ih =>
    intro arg v
    cases arg with
    | nil => simp [ var_strprefix]
    | cons a as =>
      by_cases hak : a = k
      · subst hak
        simp [ var_strprefix, ih as v]
      · simp [ var_strprefix, hak]

theorem var_strprefix_none : ∀ (key arg : List Char),
    var_strprefix arg key = none ↔ ∀ v, ¬(arg = key ++ v) := by
  intro key arg
  constructor
  · intro h v hv
    have hs := (var_strprefix_some key arg v).mpr hv
    rw [h] at hs
    exact Option.noConfusion hs
  · intro h
    cases hv : var_strprefix arg key with
    | none => rfl
    | some v => exact absurd ((var_strprefix_some key arg v).mp hv) (h v)

/-- C3: GetNullaryOption returns true when arg is exactly key with no suffix,
returns false when arg does not start with key or has a non-'=' character
right after key, and terminates the process fatally with the bad-argument
exit status when arg is key followed by '=' and a value. -/
theorem getNullaryOption_cases : ∀ (arg key : List Char),
    (arg = key → GetNullaryOption arg key = Outcome.ok true) ∧
    ((∀ rest, ¬(arg = key ++ rest)) → GetNullaryOption arg key = Outcome.ok false) ∧
    (∀ c rest, arg = key ++ c :: rest → ¬(c = '=') → GetNullaryOption arg key = Outcome.ok false) ∧
    (∀ v, arg = key ++ '=' :: v → GetNullaryOption arg key = Outcome.fatal BAD_ARGV) := by
  intro arg key
  refine ⟨?_, ?_, ?_, ?_⟩
  · intro h
    have hv : var_strprefix arg key = some [] :=
      (var_strprefix_some key arg []).mpr (by simp [h])
    simp [GetNullaryOption, hv]
  · intro h
    have hv : var_strprefix arg key = none := (var_strprefix_none key arg).mpr h
    simp [GetNullaryOption, hv]
  · intro c rest h hc
    have hv : var_strprefix arg key = some (c :: rest) :=
      (var_strprefix_some key arg (c :: rest)).mpr h
    simp [GetNullaryOption, hv, hc]
  · intro v h
    have hv : var_strprefix arg key = some ('=' :: v) :=
      (var_strprefix_some key arg ('=' :: v)).mpr h
    simp [GetNullaryOption, hv]

theorem getNullaryOption_cases_witness :
    GetNullaryOption ("--foo=x".toList) ("--foo".toList) = Outcome.fatal BAD_ARGV :=
  (getNullaryOption_cases ("--foo=x".toList) ("--foo".toList)).2.2.2 ("x".toList) (by decide)

/-- C5: GetUnaryOption returns the substring after '=' when arg is exactly
key followed by '=' and a value, returns nextArg when arg is exactly key with
nothing following, and returns the no-match sentinel (NULL, embedded as none)
when arg does not start with key or has a trailing non-'=' character after
key, so "--foobar" does not match key "--foo". -/
theorem getUnaryOption_cases : ∀ (arg next_arg key : List Char),
    (∀ v, arg = key ++ '=' :: v → GetUnaryOption arg next_arg key = some v) ∧
    (arg = key → GetUnaryOption arg next_arg key = some next_arg) ∧
    ((∀ rest, ¬(arg = key ++ rest)) → GetUnaryOption arg next_arg key = none) ∧
    (∀ c rest, arg = key ++ c :: rest → ¬(c = '=') → GetUnaryOption arg next_arg key = none) := by
  intro arg next_arg key
  refine ⟨?_, ?_, ?_, ?_⟩
  · intro v h
    have hv : var_strprefix arg key = some ('=' :: v) :=
      (var_strprefix_some key arg ('=' :: v)).mpr h
    simp [GetUnaryOption, hv]
  · intro h
    have hv : var_strprefix arg key = some [] :=
      (var_strprefix_some key arg []).mpr (by simp [h])
    simp [GetUnaryOption, hv]
  · intro h
    have hv : var_strprefix arg key = none := (var_strprefix_none key arg).mpr h
    simp [GetUnaryOption, hv]
  · intro c rest h hc
    have hv : var_strprefix arg key = some (c :: rest) :=
      (var_strprefix_some key arg (c :: rest)).mpr h
    simp [GetUnaryOption, hv, hc]

theorem getUnaryOption_cases_witness :
    GetUnaryOption ("--foobar".toList) ("next".toList) ("--foo".toList) = none :=
  (getUnaryOption_cases ("--foobar".toList) ("next".toList) ("--foo".toList)).2.2.2
    'b' ("ar".toList) (by decide) (by decide)

/-- C4: CheckValidPortOrDie returns normally exactly when the string parses
as a base-10 integer n with 0 < n < 65536, and on any parse failure or
out-of-range value it terminates fatally with the bad-argument exit status;
in particular "0" and "65536" fail fatally while "8080" succeeds. -/
theorem checkValidPortOrDie_spec :
    (∀ (str opt : List Char),
      (CheckValidPortOrDie str opt = Outcome.ok () ↔
        ∃ n, safe_strto32 str = some n ∧ 0 < n ∧ n < 65536) ∧
      (CheckValidPortOrDie str opt = Outcome.ok () ∨
        CheckValidPortOrDie str opt = Outcome.fatal BAD_ARGV)) ∧
    CheckValidPortOrDie ("0".toList) ("--port".toList) = Outcome.fatal BAD_ARGV ∧
    CheckValidPortOrDie ("65536".toList) ("--port".toList) = Outcome.fatal BAD_ARGV ∧
    CheckValidPortOrDie ("8080".toList) ("--port".toList) = Outcome.ok () := by
  refine ⟨?_, by decide, by decide, by decide⟩
  intro str opt
  unfold CheckValidPortOrDie
  cases h : safe_strto32 str with
  | none => simp
  | some n =>
    by_cases hn : 0 < n ∧ n < 65536
    · simp [hn]
    · simp [hn]

theorem checkValidPortOrDie_spec_witness :
    CheckValidPortOrDie ("8080".toList) ("--port".toList) = Outcome.ok () :=
  checkValidPortOrDie_spec.2.2.2

/-- C10: when the window-size ioctl fails, GetTerminalColumns returns the
COLUMNS value as-is (zero and negative values included) whenever COLUMNS is
set, nonempty, and fully consumed by the base-10 parse, and returns the
default 80 when COLUMNS is unset, empty, or not fully numeric; when the
ioctl succeeds its column count is returned directly. -/
theorem getTerminalColumns_fallback : ∀ (columns_env : Option (List Char)),
    (∀ s n used, columns_env = some s → ¬(s = []) → strto32 s = (n, used) →
      used = s.length → GetTerminalColumns none columns_env = n) ∧
    (columns_env = none → GetTerminalColumns none columns_env = 80) ∧
    (columns_env = some [] → GetTerminalColumns none columns_env = 80) ∧
    (∀ s, columns_env = some s → ¬((strto32 s).2 = s.length) →
      GetTerminalColumns none columns_env = 80) ∧
    (∀ w, GetTerminalColumns (some w) columns_env = (w : Int)) := by
  intro columns_env
  refine ⟨?_, ?_, ?_, ?_, ?_⟩
  · intro s n used henv hne hparse hused
    subst henv
    simp [GetTerminalColumns, hne, hparse, hused]
  · intro h
    subst h
    rfl
  · intro h
    subst h
    rfl
  · intro s henv hne
    subst henv
    by_cases hs : s = []
    · simp [GetTerminalColumns, hs]
    · simp [GetTerminalColumns, hs]
      intro h80
      exact absurd h80 hne
  · intro w
    rfl

theorem getTerminalColumns_fallback_witness :
    GetTerminalColumns none (some ("-5".toList)) = -5 :=
  (getTerminalColumns_fallback (some ("-5".toList))).1 ("-5".toList) (-5) 2
    rfl (by decide) (by decide) (by decide)

/-- C6: MakeAbsolute returns empty or already-absolute paths unchanged;
otherwise it returns the working directory concatenated with the path,
inserting a '/' separator exactly when the working directory does not already
end with '/', so the insertion never produces a double separator. -/
theorem makeAbsolute_cases : ∀ (cwd p : List Char), ¬(cwd = []) →
    (p = [] → MakeAbsolute cwd p = p) ∧
    (p.head? = some '/' → MakeAbsolute cwd p = p) ∧
    (¬(p = []) → ¬(p.head? = some '/') →
      (cwd.getLast? = some '/' → MakeAbsolute cwd p = cwd ++ p) ∧
      (¬(cwd.getLast? = some '/') → MakeAbsolute cwd p = cwd ++ '/' :: p)) := by
  intro cwd p hcwd
  refine ⟨?_, ?_, ?_⟩
  · intro h
    simp [MakeAbsolute, h]
  · intro h
    simp [MakeAbsolute, h]
  · intro h1 h2
    constructor
    · intro h3
      simp [MakeAbsolute, h1, h2, h3]
    · intro h3
      simp [MakeAbsolute, h1, h2, h3]

theorem makeAbsolute_cases_witness :
    MakeAbsolute ("/bar".toList) ("foo".toList) = "/bar".toList ++ '/' :: "foo".toList :=
  ((makeAbsolute_cases ("/bar".toList) ("foo".toList) (by decide)).2.2
    (by decide) (by decide)).2 (by decide)

/-- C7: on a filesystem holding only the root, MakeDirectories "/a/b/c"
creates the directories /a, /a/b and /a/b/c and returns 0 (success), and
running MakeDirectories again on the resulting filesystem returns 0 and
leaves the filesystem unchanged: the operation is idempotent because an
already-existing component (EEXIST) is not treated as an error. -/
theorem makeDirectories_abc_idempotent :
    MakeDirectories ("/a/b/c".toList) 493 ["/".toList] =
      (0, ["/a/b/c".toList, "/a/b".toList, "/a".toList, "/".toList]) ∧
    "/a".toList ∈ (MakeDirectories ("/a/b/c".toList) 493 ["/".toList]).2 ∧
    "/a/b".toList ∈ (MakeDirectories ("/a/b/c".toList) 493 ["/".toList]).2 ∧
    "/a/b/c".toList ∈ (MakeDirectories ("/a/b/c".toList) 493 ["/".toList]).2 ∧
    MakeDirectories ("/a/b/c".toList) 493
        ["/a/b/c".toList, "/a/b".toList, "/a".toList, "/".toList] =
      (0, ["/a/b/c".toList, "/a/b".toList, "/a".toList, "/".toList]) := by
  decide

theorem denied_iff : ∀ (t em : Option (List Char)) (o er : Bool),
    (envOrEmpty t = [] ∨ envOrEmpty t = ['d', 'u', 'm', 'b'] ∨
      envOrEmpty t = ['e', 'm', 'a', 'c', 's'] ∨
      envOrEmpty t = ['x', 't', 'e', 'r', 'm', '-', 'm', 'o', 'n', 'o'] ∨
      envOrEmpty t = ['s', 'y', 'm', 'b', 'o', 'l', 'i', 'c', 's'] ∨
      envOrEmpty t = ['9', 't', 'e', 'r', 'm'] ∨ envOrEmpty em = ['t']) ↔
    deniedTerm ⟨t, em, o, er⟩ := by
  intro t em o er
  cases t <;> cases em <;> simp [deniedTerm, envOrEmpty]

/-- C8: IsStandardTerminal returns false whenever TERM is unset or empty or
one of the dumb terminal types (dumb, emacs, xterm-mono, symbolics, 9term)
or EMACS equals "t", regardless of tty attachment, and returns true exactly
when none of these hold and both stdout and stderr are attached to a
terminal. -/
theorem isStandardTerminal_spec : ∀ (e : TermEnv),
    (deniedTerm e → IsStandardTerminal e = false) ∧
    (IsStandardTerminal e = true ↔
      ¬ deniedTerm e ∧ e.stdout_tty = true ∧ e.stderr_tty = true) := by
  intro e
  obtain ⟨t, em, o, er⟩ := e
  have key : IsStandardTerminal ⟨t, em, o, er⟩ =
      if deniedTerm ⟨t, em, o, er⟩ then false else (o && er) := by
    unfold IsStandardTerminal
    by_cases hd : deniedTerm ⟨t, em, o, er⟩
    · rw [if_pos hd, if_pos ((denied_iff t em o er).mpr hd)]
    · rw [if_neg hd, if_neg (fun hc => hd ((denied_iff t em o er).mp hc))]
  rw [key]
  by_cases hd : deniedTerm ⟨t, em, o, er⟩
  · simp [hd]
  · simp [hd]

theorem isStandardTerminal_spec_witness :
    IsStandardTerminal ⟨some ("dumb".toList), none, true, true⟩ = false :=
  (isStandardTerminal_spec ⟨some ("dumb".toList), none, true, true⟩).1 (by decide)

/-- WriteEnv of the C1 counterexample: open succeeds, the single write(2)
call fails (returns -1, setting errno 28, ENOSPC), and the subsequent
close(2) also fails, setting errno 5 (EIO). -/
def cexWriteEnv : WriteEnv := ⟨true, 0, -1, 28, false, 5⟩

/-- C1 counterexample: with content "x" the write step fails (returns -1
with errno 28) and the close also fails (errno 5).  WriteFile returns false,
but the last-error value observable by the caller is 5, the close error, not
28, the originating write error: the early return on a failed close skips
the errno restoration. -/
theorem writeFile_errno_counterexample :
    (WriteFile ("x".toList) ("p".toList) cexWriteEnv []).1 = false ∧
    cexWriteEnv.writeRet < (("x".toList).length : Int) ∧
    cexWriteEnv.writeErrno = 28 ∧ cexWriteEnv.closeOk = false ∧
    (WriteFile ("x".toList) ("p".toList) cexWriteEnv []).2.1 = 5 ∧
    ¬((WriteFile ("x".toList) ("p".toList) cexWriteEnv []).2.1 =
      cexWriteEnv.writeErrno) := by
  decide

/-- C1 amended: when the write step fails or writes fewer bytes than
requested, WriteFile returns false; the last-error value observable by the
caller is the one originating from the write step when the close succeeds,
but when the subsequent close also fails the observable last-error value is
the close error. -/
theorem writeFile_errno_amended :
    ∀ (content path : List Char) (env : WriteEnv) (fs : Fs),
    env.openOk = true → env.writeRet < (content.length : Int) →
    (WriteFile content path env fs).1 = false ∧
    (env.closeOk = true → (WriteFile content path env fs).2.1 = env.writeErrno) ∧
    (env.closeOk = false → (WriteFile content path env fs).2.1 = env.closeErrno) := by
  intro content path env fs hopen hwr
  have hne : ¬(env.writeRet = (content.length : Int)) := Int.ne_of_lt hwr
  cases hclose : env.closeOk with
  | false =>
    refine ⟨?_, ?_, ?_⟩
    · simp [WriteFile, hopen, hclose]
    · intro h
      simp [hclose] at h
    · intro _
      simp [WriteFile, hopen, hclose]
  | true =>
    refine ⟨?_, ?_, ?_⟩
    · simp [WriteFile, hopen, hclose, hne]
    · intro _
      simp [WriteFile, hopen, hclose]
    · intro h
      simp [hclose] at h

theorem writeFile_errno_amended_witness :
    (WriteFile ("x".toList) ("p".toList) ⟨true, 0, 0, 7, true, 9⟩ []).1 = false ∧
    (WriteFile ("x".toList) ("p".toList) ⟨true, 0, 0, 7, true, 9⟩ []).2.1 = 7 := by
  have h := writeFile_errno_amended ("x".toList) ("p".toList)
    ⟨true, 0, 0, 7, true, 9⟩ [] (by decide) (by decide)
  exact ⟨h.1, h.2.1 (by decide)⟩

theorem readLoop_no_err : ∀ (script : List RdOut) (data acc : List Char),
    (∀ ev ∈ script, ¬(ev = RdOut.err)) →
    readLoop data script acc = (true, acc ++ data) := by
  intro script
  induction script with
  | nil =>
    intro data acc h
    rfl
  | cons ev rest ih =>
    intro data acc h
    cases ev with
    | intr =>
      show readLoop data rest acc = (true, acc ++ data)
      exact ih data acc (fun e he => h e (List.mem_cons_of_mem _ he))
    | err => exact absurd rfl (h RdOut.err (List.mem_cons_self _ _))
    | ok =>
      show (if data = [] then (true, acc)
        else readLoop (data.drop bufSize) rest (acc ++ data.take bufSize)) =
          (true, acc ++ data)
      by_cases hd : data = []
      · rw [if_pos hd, hd]
        simp
      · rw [if_neg hd, ih _ _ (fun e he => h e (List.mem_cons_of_mem _ he))]
        simp [List.append_assoc, List.take_append_drop]

/-- C2: for every byte content (null bytes included) and every path and
syscall environment on which WriteFile succeeds, reading the path back with
no read errors succeeds and yields exactly the written content. -/
theorem writeFile_readFile_roundtrip :
    ∀ (content path : List Char) (env : WriteEnv) (fs : Fs) (script : List RdOut)
      (content0 : List Char),
    (WriteFile content path env fs).1 = true →
    (∀ ev ∈ script, ¬(ev = RdOut.err)) →
    ReadFile path (WriteFile content path env fs).2.2 script content0 =
      (true, content) := by
  intro content path env fs script content0 hw hs
  cases hopen : env.openOk with
  | false =>
    rw [WriteFile] at hw
    simp [hopen] at hw
  | true =>
    cases hclose : env.closeOk with
    | false =>
      rw [WriteFile] at hw
      simp [hopen, hclose] at hw
    | true =>
      rw [WriteFile] at hw
      simp [hopen, hclose] at hw
      have htake : content.take env.writeRet.toNat = content := by
        rw [hw]
        simp
      simp only [ReadFile, WriteFile, hopen, hclose, Bool.false_eq_true,
        if_false, if_true, fsLookup, List.find?]
      simp only [beq_self_eq_true, htake]
      rw [readLoop_no_err script content [] hs]
      simp

theorem writeFile_readFile_roundtrip_witness :
    ReadFile ("p".toList)
      (WriteFile ('h' :: '\x00' :: 'i' :: []) ("p".toList)
        ⟨true, 0, 3, 0, true, 0⟩ []).2.2
      [] ("junk".toList) = (true, 'h' :: '\x00' :: 'i' :: []) :=
  writeFile_readFile_roundtrip ('h' :: '\x00' :: 'i' :: []) ("p".toList)
    ⟨true, 0, 3, 0, true, 0⟩ [] [] ("junk".toList) (by decide)
    (by intro ev he; cases he)

/-- Number of successful reads in a script segment. -/
def okCount : List RdOut → Nat
  | [] => 0
  | RdOut.ok :: rest => okCount rest + 1
  | _ :: rest => okCount rest

theorem readLoop_err_stops :
    ∀ (pre post : List RdOut) (data acc : List Char),
    (∀ ev ∈ pre, ¬(ev = RdOut.err)) → bufSize * okCount pre < data.length →
    readLoop data (pre ++ RdOut.err :: post) acc =
      (false, acc ++ data.take (bufSize * okCount pre)) := by
  intro pre
  induction pre with
  | nil =>
    intro post data acc h hlen
    show (false, acc) = (false, acc ++ data.take (bufSize * okCount []))
    simp [okCount]
  | cons ev rest ih =>
    intro post data acc h hlen
    cases ev with
    | err => exact absurd rfl (h RdOut.err (List.mem_cons_self _ _))
    | intr =>
      show readLoop data (rest ++ RdOut.err :: post) acc =
        (false, acc ++ data.take (bufSize * okCount (RdOut.intr :: rest)))
      rw [ih post data acc (fun e he => h e (List.mem_cons_of_mem _ he)) hlen]
      rfl
    | ok =>
      have hcount : okCount (RdOut.ok :: rest) = okCount rest + 1 := rfl
      have harith : bufSize * (okCount rest + 1) = bufSize + bufSize * okCount rest := by
        ring
      have hd : ¬(data = []) := by
        intro h0
        rw [h0] at hlen
        simp at hlen
      show (if data = [] then (true, acc)
        else readLoop (data.drop bufSize) (rest ++ RdOut.err :: post)
          (acc ++ data.take bufSize)) =
          (false, acc ++ data.take (bufSize * okCount (RdOut.ok :: rest)))
      rw [if_neg hd]
      rw [ih post (data.drop bufSize) (acc ++ data.take bufSize)
        (fun e he => h e (List.mem_cons_of_mem _ he)) ?hl]
      case hl =>
        rw [List.length_drop]
        rw [hcount, harith] at hlen
        omega
      rw [hcount, harith, List.take_add, List.append_assoc]

/-- C9: ReadFile clears the output string at the start of every call (its
result does not depend on the previous output value); when the open fails it
returns false with the output empty; and when a read fails with a non-EINTR
error after some bytes were already read, it returns false with the output
holding exactly the bytes read before the error. -/
theorem readFile_spec :
    ∀ (path : List Char) (fs : Fs) (script : List RdOut) (c0 c0' : List Char),
    ReadFile path fs script c0 = ReadFile path fs script c0' ∧
    (fsLookup path fs = none → ReadFile path fs script c0 = (false, [])) ∧
    (∀ data pre post, fsLookup path fs = some data →
      script = pre ++ RdOut.err :: post →
      (∀ ev ∈ pre, ¬(ev = RdOut.err)) →
      bufSize * okCount pre < data.length →
      ReadFile path fs script c0 = (false, data.take (bufSize * okCount pre))) := by
  intro path fs script c0 c0'
  refine ⟨rfl, ?_, ?_⟩
  · intro h
    simp [ReadFile, h]
  · intro data pre post hlook hs hpre hlen
    subst hs
    simp only [ReadFile, hlook]
    rw [readLoop_err_stops pre post data [] hpre hlen]
    simp

theorem readFile_spec_witness :
    ReadFile ("f".toList) [(("f".toList), ("ab".toList))] [RdOut.err]
      ("junk".toList) = (false, []) := by
  have h := (readFile_spec ("f".toList) [(("f".toList), ("ab".toList))]
    [RdOut.err] ("junk".toList) []).2.2 ("ab".toList) [] []
    (by decide) rfl (by intro ev he; cases he) (by decide)
  simpa using h

end blaze
